import Mathlib

/-!
# Verification of `windebug_logger`

A shallow embedding of the `windebug_logger` crate (`src/lib.rs`): a logging
sink that forwards log records to the Win32 `OutputDebugStringW` facility.

* Pure data (`Level`, `Record`, `WinDebugLogger`) mirrors the Rust structures
  and the `log` crate types the code uses.
* The OS primitives the dispatcher calls (`GetSystemTime`, `GetDateFormatW`,
  `GetTimeFormatW`, `FormatMessageW`, `OutputDebugStringW`, `LocalFree`) are
  modelled by an environment `OsEnv` of fallible oracles, and the observable
  side effects of one emission are recorded as a trace of events (`Ev`).
* The `codecvt` module is not part of the sources at hand; its single function
  `str_to_c_wstr` is modelled from the specification (see its doc comment).
-/

/-- The `log` crate's `Level` enum: `Error = 1, Warn, Info, Debug, Trace`.
Its `PartialOrd` is derived from the discriminants, so `Error < Warn < … < Trace`. -/
inductive Level where
  | Error
  | Warn
  | Info
  | Debug
  | Trace
deriving DecidableEq, Repr

/-- The discriminant of `log::Level` (`Error = 1`, …, `Trace = 5`). -/
def Level.toNat : Level → Nat
  | .Error => 1
  | .Warn => 2
  | .Info => 3
  | .Debug => 4
  | .Trace => 5

/-- The derived ordering of `log::Level`: comparison of discriminants. -/
def levelLe (a b : Level) : Bool :=
  a.toNat ≤ b.toNat

/-- The `Display` rendering of `log::Level`: the five upper-case severity names. -/
def Level.display : Level → String
  | .Error => "ERROR"
  | .Warn => "WARN"
  | .Info => "INFO"
  | .Debug => "DEBUG"
  | .Trace => "TRACE"

/-- The `log` crate's `LevelFilter` enum (`Off = 0`, then the five levels). -/
inductive LevelFilter where
  | Off
  | Error
  | Warn
  | Info
  | Debug
  | Trace
deriving DecidableEq, Repr

/-- The method `log::Level::to_level_filter`: the filter admitting exactly this level and above. -/
def Level.to_level_filter : Level → LevelFilter
  | .Error => .Error
  | .Warn => .Warn
  | .Info => .Info
  | .Debug => .Debug
  | .Trace => .Trace

/-- The `log::Metadata` struct: the part of a record consulted by `Log::enabled`. -/
structure Metadata where
  level : Level
  target : String
deriving DecidableEq, Repr

/-- The `log::Record` struct: level, target, optional module path, and the already
rendered message (`record.args()`). -/
structure Record where
  level : Level
  target : String
  module_path : Option String
  args : String
deriving DecidableEq, Repr

/-- The method `record.metadata()`: the metadata view of a record. -/
def Record.metadata (r : Record) : Metadata :=
  { level := r.level, target := r.target }

/-- The logger struct of `src/lib.rs`: `pub struct WinDebugLogger { pub level: Level }`. -/
structure WinDebugLogger where
  level : Level
deriving DecidableEq, Repr

/-- Method `enabled` of `impl log::Log for WinDebugLogger`:
`metadata.level() <= self.level`. -/
def WinDebugLogger.enabled (self : WinDebugLogger) (metadata : Metadata) : Bool :=
  levelLe metadata.level self.level

/-- A wide (UTF-16) string: a sequence of 16-bit code units, kept as `Nat`s. -/
def WStr : Type := List Nat
deriving DecidableEq, Repr

/-- UTF-16 encoding of one Unicode scalar value: one code unit below `0x10000`,
a surrogate pair above. -/
def utf16EncodeChar (c : Char) : List Nat :=
  let n := c.toNat
  if n < 0x10000 then [n]
  else [0xD800 + (n - 0x10000) / 0x400, 0xDC00 + (n - 0x10000) % 0x400]

/-- UTF-16 encoding of a character sequence. -/
def utf16Encode : List Char → List Nat
  | [] => []
  | c :: cs => utf16EncodeChar c ++ utf16Encode cs

/-- UTF-16 decoding: a non-surrogate unit is a scalar value; a high surrogate
must be followed by a low surrogate; anything else fails. -/
def utf16Decode : List Nat → Option (List Char)
  | [] => some []
  | u :: rest =>
    if u < 0xD800 ∨ (0xDFFF < u ∧ u < 0x110000) then
      (utf16Decode rest).map (fun cs => Char.ofNat u :: cs)
    else if 0xD800 ≤ u ∧ u ≤ 0xDBFF then
      match rest with
      | v :: rest2 =>
        if 0xDC00 ≤ v ∧ v ≤ 0xDFFF then
          (utf16Decode rest2).map
            (fun cs => Char.ofNat (0x10000 + (u - 0xD800) * 0x400 + (v - 0xDC00)) :: cs)
        else none
      | [] => none
    else none

/-- Modelled from the spec: `codecvt::str_to_c_wstr` (the `codecvt` module is
declared in `src/lib.rs` but its file is not among the sources at hand).
Per spec §4.1 it converts a native string into an owned, null-terminated
sequence of 16-bit code units, and yields no result on encoding failure;
per spec §8 a string with an embedded null is the failing case. -/
def str_to_c_wstr (s : String) : Option (List Nat) :=
  if s.data.any (fun c => c.toNat == 0) then none
  else some (utf16Encode s.data ++ [0])

/-- Modelled from the spec: the decoding direction of the text encoder used to
state the round-trip property of spec §8 — strip the null terminator and
decode the UTF-16 code units back to a native string. -/
def c_wstr_to_str (w : List Nat) : Option String :=
  if w.getLast? = some 0 then
    (utf16Decode w.dropLast).map (fun cs => String.mk cs)
  else none

/-- The `SYSTEMTIME` structure filled in by `GetSystemTime`. -/
structure SystemTime where
  wYear : Nat
  wMonth : Nat
  wDayOfWeek : Nat
  wDay : Nat
  wHour : Nat
  wMinute : Nat
  wSecond : Nat
  wMilliseconds : Nat
deriving DecidableEq, Repr

/-- The environment of OS primitives consulted by one `log` call:
the current system time, the two fallible locale-invariant formatters
(`GetDateFormatW` / `GetTimeFormatW`, returning the formatted wide string or
failing as a zero result does), and whether `FormatMessageW`'s allocation
succeeds. -/
structure OsEnv where
  systemTime : SystemTime
  dateFormatW : SystemTime → Option (List Nat)
  timeFormatW : SystemTime → Option (List Nat)
  formatMessageOk : Bool

/-- Observable events of one emission: `FormatMessageW` allocating the final
buffer (`FORMAT_MESSAGE_ALLOCATE_BUFFER`), the `OutputDebugStringW` call, and
the `LocalFree` release. Each carries the buffer contents. -/
inductive Ev where
  | allocBuffer (w : List Nat)
  | debugOutput (w : List Nat)
  | freeBuffer (w : List Nat)
deriving DecidableEq, Repr

/-- The call `FormatMessageW` with `FORMAT_MESSAGE_FROM_STRING | FORMAT_MESSAGE_ARGUMENT_ARRAY`
on the pattern `"%1 %2 %3\n"`: positional substitution of the three argument
strings, separated by single spaces (`0x20`) and terminated by one newline
(`0x0A`); fails (zero result, no buffer) when the allocation fails. -/
def formatMessage (env : OsEnv) (p1 p2 p3 : List Nat) : Option (List Nat) :=
  if env.formatMessageOk then some (p1 ++ [32] ++ p2 ++ [32] ++ p3 ++ [10]) else none

/-- The category local of `fn log`: `record.target()` when non-empty, else
`record.module_path().unwrap_or_default()`. -/
def categoryOf (r : Record) : String :=
  if r.target.length > 0 then r.target else r.module_path.getD ""

/-- Left-alignment to minimum width 5 (`{:<5}`): pad on the right with spaces. -/
def alignLeft5 (s : String) : String :=
  s ++ String.mk (List.replicate (5 - s.length) ' ')

/-- The body local of `fn log`: `format!("{:<5} [{}] {}", record.level(), target, record.args())`. -/
def bodyString (r : Record) : String :=
  alignLeft5 r.level.display ++ " [" ++ categoryOf r ++ "] " ++ r.args

/-- The free function `fn log(record: &Record) -> Option<()>` of `src/lib.rs`,
with its side effects made explicit as an event trace. Each `?` / early
`return None` aborts with no further events; on success the final buffer is
allocated, written via `OutputDebugStringW`, and released via `LocalFree`.
(`FormatMessageW` substitutes each argument string up to its null terminator,
hence `bodyW.dropLast`.) -/
def logEmit (env : OsEnv) (r : Record) : Option Unit × List Ev :=
  match str_to_c_wstr (bodyString r) with
  | none => (none, [])
  | some bodyW =>
    let system_time := env.systemTime
    match env.dateFormatW system_time with
    | none => (none, [])
    | some date_str =>
      match env.timeFormatW system_time with
      | none => (none, [])
      | some time_str =>
        match formatMessage env date_str time_str bodyW.dropLast with
        | none => (none, [])
        | some final_str =>
          (some (), [Ev.allocBuffer final_str, Ev.debugOutput final_str, Ev.freeBuffer final_str])

/-- Method `log` of `impl log::Log for WinDebugLogger`: return early when the
record is not enabled; otherwise `let _ = log(record)` — the fallible result
is discarded and the caller always receives unit. -/
def WinDebugLogger.logMeth (self : WinDebugLogger) (env : OsEnv) (r : Record) :
    Unit × List Ev :=
  if !self.enabled r.metadata then ((), [])
  else ((), (logEmit env r).2)

/-- Method `flush` of `impl log::Log for WinDebugLogger`: `fn flush(&self) {}` —
no effect, no events. -/
def WinDebugLogger.flushMeth (_ : WinDebugLogger) : Unit × List Ev :=
  ((), [])

/-- The `OutputDebugStringW` payloads of a trace. -/
def outputsOf (tr : List Ev) : List (List Nat) :=
  tr.filterMap (fun e => match e with
    | Ev.debugOutput w => some w
    | _ => none)

/-- Whether a trace contains an `OutputDebugStringW` call. -/
def hasOutputCall (tr : List Ev) : Bool :=
  tr.any (fun e => match e with
    | Ev.debugOutput _ => true
    | _ => false)

/-- All the OS primitives a given record's emission needs succeed: the body
encodes, both `GetDateFormatW` and `GetTimeFormatW` succeed, and
`FormatMessageW` can allocate. -/
def emitOk (env : OsEnv) (r : Record) : Bool :=
  (str_to_c_wstr (bodyString r)).isSome &&
  (env.dateFormatW env.systemTime).isSome &&
  (env.timeFormatW env.systemTime).isSome &&
  env.formatMessageOk

/-- The `log::SetLoggerError` type: the opaque error returned when a logger is already set. -/
inductive SetLoggerError where
  | mk
deriving DecidableEq, Repr

/-- The `log` crate's process-global registry state: the installed logger (if
any) and the `MAX_LEVEL` filter, initially `Off`. This is the external
collaborator's contract the init façade relies on (spec §4.3). -/
structure GlobalState where
  logger : Option WinDebugLogger
  maxLevel : LevelFilter
deriving DecidableEq, Repr

/-- The registry state at process start: no logger, `MAX_LEVEL = Off`. -/
def freshState : GlobalState :=
  { logger := none, maxLevel := LevelFilter.Off }

/-- The function `log::set_logger`: succeeds and installs the logger when none is
registered, otherwise fails with `SetLoggerError` and changes nothing. -/
def set_logger (st : GlobalState) (L : WinDebugLogger) :
    Except SetLoggerError Unit × GlobalState :=
  match st.logger with
  | none => (Except.ok (), { st with logger := some L })
  | some _ => (Except.error SetLoggerError.mk, st)

/-- The function `log::set_boxed_logger`: boxes the logger and registers it; boxing has no
observable effect in the model. -/
def set_boxed_logger (st : GlobalState) (L : WinDebugLogger) :
    Except SetLoggerError Unit × GlobalState :=
  set_logger st L

/-- The function `log::set_max_level`: unconditionally store the filter. -/
def set_max_level (st : GlobalState) (f : LevelFilter) : GlobalState :=
  { st with maxLevel := f }

/-- The expansion of the `init_with_level_static!` macro: build a
`WinDebugLogger` at the given level, `set_logger`, and on success only,
`set_max_level(logger.level.to_level_filter())`. -/
def init_with_level_static (st : GlobalState) (level : Level) :
    Except SetLoggerError Unit × GlobalState :=
  let logger : WinDebugLogger := { level := level }
  match set_logger st logger with
  | (Except.ok (), st2) => (Except.ok (), set_max_level st2 logger.level.to_level_filter)
  | (Except.error e, st2) => (Except.error e, st2)

/-- The crate function `init_with_level`: build a `WinDebugLogger`, `set_boxed_logger`,
and on success only, `set_max_level(level.to_level_filter())`. -/
def init_with_level (st : GlobalState) (level : Level) :
    Except SetLoggerError Unit × GlobalState :=
  let logger : WinDebugLogger := { level := level }
  match set_boxed_logger st logger with
  | (Except.ok (), st2) => (Except.ok (), set_max_level st2 level.to_level_filter)
  | (Except.error e, st2) => (Except.error e, st2)

/-- The crate function `init`: `init_with_level_static!(Level::Trace)`. -/
def init (st : GlobalState) : Except SetLoggerError Unit × GlobalState :=
  init_with_level_static st Level.Trace

/-- One of the three initialization entry points of the crate. -/
inductive InitCall where
  | initC
  | initWithLevelC (l : Level)
  | initWithLevelStaticC (l : Level)
deriving DecidableEq, Repr

/-- Run an initialization entry point against the registry state. -/
def runInit (st : GlobalState) : InitCall → Except SetLoggerError Unit × GlobalState
  | .initC => init st
  | .initWithLevelC l => init_with_level st l
  | .initWithLevelStaticC l => init_with_level_static st l

/-- The threshold an entry point installs (`init` uses `Trace`). -/
def InitCall.levelOf : InitCall → Level
  | .initC => Level.Trace
  | .initWithLevelC l => l
  | .initWithLevelStaticC l => l

/-- One call to a `log::Log` method of the logger. -/
inductive LoggerCall where
  | enabledC (m : Metadata)
  | logC (env : OsEnv) (r : Record)
  | flushC

/-- Dispatch one `log::Log` method call: all three methods take `&self`, so
the logger value is the one the method was called on, unchanged; the trace
collects the call's events. -/
def runCall (L : WinDebugLogger) : LoggerCall → WinDebugLogger × List Ev
  | .enabledC m =>
    let _ := L.enabled m
    (L, [])
  | .logC env r => (L, (L.logMeth env r).2)
  | .flushC =>
    let _ := L.flushMeth
    (L, [])

/-- Run a sequence of `log::Log` method calls, threading the logger value and
concatenating the event traces. -/
def runCalls (L : WinDebugLogger) : List LoggerCall → WinDebugLogger × List Ev
  | [] => (L, [])
  | c :: cs =>
    let p := runCall L c
    let q := runCalls p.1 cs
    (q.1, p.2 ++ q.2)

/-! ## Concrete fixtures used by witnesses and counterexamples -/

/-- A sample `SYSTEMTIME`. -/
def sampleTime : SystemTime :=
  ⟨2026, 10, 0, 12, 12, 0, 0, 0⟩

/-- A sample locale-invariant date string, as wide text. -/
def sampleDateW : List Nat := utf16Encode "10/12/2026".data

/-- A sample locale-invariant time string, as wide text. -/
def sampleTimeW : List Nat := utf16Encode "12:00:00".data

/-- An environment in which every OS primitive succeeds. -/
def okEnv : OsEnv :=
  { systemTime := sampleTime
    dateFormatW := fun _ => some sampleDateW
    timeFormatW := fun _ => some sampleTimeW
    formatMessageOk := true }

/-- The spec's worked example record: level `Warn`, target `app::net`,
message `connection lost`. -/
def warnRecord : Record :=
  { level := Level.Warn, target := "app::net", module_path := some "app::net"
    args := "connection lost" }

/-- A record whose message carries an embedded null, making the text
encoding step fail. -/
def nulRecord : Record :=
  { level := Level.Error, target := "t", module_path := none, args := "a\x00b" }

/-- A record whose message ends in a newline of its own. -/
def newlineRecord : Record :=
  { level := Level.Warn, target := "app", module_path := some "app", args := "oops\n" }

/-- A registry state in which a logger is already installed. -/
def occupiedState : GlobalState :=
  { logger := some { level := Level.Trace }, maxLevel := LevelFilter.Trace }

/-! ## Theorems -/

/-- The number of trailing newline (`0x0A`) units of a wide string. -/
def trailingNewlineCount (w : List Nat) : Nat :=
  (w.reverse.takeWhile (fun u => u == 10)).length

/-- Split a wide string at its first space (`0x20`): the part before it and
the part after it. -/
def splitFirstSpace (w : List Nat) : List Nat × List Nat :=
  (w.takeWhile (fun u => u != 32), (w.dropWhile (fun u => u != 32)).drop 1)

/-- The three top-level space-separated segments of a line: split at the
first space, then the remainder at its first space. -/
def splitThreeSegments (w : List Nat) : List Nat × List Nat × List Nat :=
  ((splitFirstSpace w).1, (splitFirstSpace (splitFirstSpace w).2).1,
    (splitFirstSpace (splitFirstSpace w).2).2)

/-- The line emitted for `newlineRecord` under `okEnv`. -/
def newlinePayload : List Nat :=
  sampleDateW ++ [32] ++ sampleTimeW ++ [32] ++
    utf16Encode (bodyString newlineRecord).data ++ [10]

/-- Claim C5: For every process, calling any init entry point succeeds on the
first call (from the uninitialized registry state), and any init call made
once a logger is registered yields the typed `SetLoggerError`
("already initialized") to the caller, leaving the state unchanged — so every
subsequent call after a successful one fails. -/
theorem init_first_succeeds_then_fails :
    (∀ (c : InitCall) (st : GlobalState), st.logger = none →
      (runInit st c).1 = Except.ok () ∧ ((runInit st c).2).logger ≠ none) ∧
    (∀ (c : InitCall) (st : GlobalState), st.logger ≠ none →
      (runInit st c).1 = Except.error SetLoggerError.mk ∧ (runInit st c).2 = st) := by
  constructor
  · intro c st h
    cases c <;>
      simp [runInit, init, init_with_level_static, init_with_level, set_boxed_logger,
        set_logger, h, set_max_level]
  · intro c st h
    cases hl : st.logger with
    | none => exact absurd hl h
    | some L =>
      cases c <;>
        simp [runInit, init, init_with_level_static, init_with_level, set_boxed_logger,
          set_logger, hl]

/-- Witness for C5: at the fresh registry state, `init()` succeeds, and the
immediately following `init_with_level(Warn)` fails with the typed error. -/
theorem init_first_succeeds_then_fails_witness :
    (runInit freshState InitCall.initC).1 = Except.ok () ∧
    (runInit (runInit freshState InitCall.initC).2 (InitCall.initWithLevelC Level.Warn)).1 =
      Except.error SetLoggerError.mk := by
  refine ⟨(init_first_succeeds_then_fails.1 InitCall.initC freshState rfl).1, ?_⟩
  exact (init_first_succeeds_then_fails.2 (InitCall.initWithLevelC Level.Warn)
    (runInit freshState InitCall.initC).2
    (init_first_succeeds_then_fails.1 InitCall.initC freshState rfl).2).1

/-- Claim C8: `init()` is definitionally `init_with_level_static!(Trace)`;
`init_with_level_static!(l)` and `init_with_level(l)` are observably
equivalent for every level and state; and a successful `init()` installs a
logger with the `Trace` threshold, for which every metadata is enabled
(everything is emitted). -/
theorem init_entry_points_equivalent :
    (∀ st : GlobalState, init st = init_with_level_static st Level.Trace) ∧
    (∀ (st : GlobalState) (l : Level), init_with_level_static st l = init_with_level st l) ∧
    (∀ st : GlobalState, st.logger = none →
      ((init st).2).logger = some { level := Level.Trace } ∧
      ∀ m : Metadata, WinDebugLogger.enabled { level := Level.Trace } m = true) := by
  refine ⟨fun st => rfl, fun st l => rfl, fun st h => ⟨?_, fun m => ?_⟩⟩
  · simp [init, init_with_level_static, set_logger, h, set_max_level]
  · cases m with
    | mk lvl tgt => cases lvl <;> rfl

/-- Witness for C8: from the fresh state, `init()` installs the
`Trace`-threshold logger, and a `Debug`-level metadata is enabled by it. -/
theorem init_entry_points_equivalent_witness :
    ((init freshState).2).logger = some { level := Level.Trace } ∧
    WinDebugLogger.enabled { level := Level.Trace } { level := Level.Debug, target := "x" }
      = true :=
  ⟨(init_entry_points_equivalent.2.2 freshState rfl).1,
   (init_entry_points_equivalent.2.2 freshState rfl).2
     { level := Level.Debug, target := "x" }⟩

/-- Claim C9: Every init entry point, when it succeeds, also sets the
process-global `MAX_LEVEL` filter to its threshold's filter; when
registration fails, the global filter (indeed the whole state) is left
unchanged. -/
theorem init_sets_max_level :
    ∀ (st : GlobalState) (c : InitCall),
      ((runInit st c).1 = Except.ok () →
        ((runInit st c).2).maxLevel = c.levelOf.to_level_filter) ∧
      ((runInit st c).1 ≠ Except.ok () → (runInit st c).2 = st) := by
  intro st c
  cases hl : st.logger with
  | none =>
    cases c <;>
      simp [runInit, init, init_with_level_static, init_with_level, set_boxed_logger,
        set_logger, hl, set_max_level, InitCall.levelOf]
  | some L =>
    cases c <;>
      simp [runInit, init, init_with_level_static, init_with_level, set_boxed_logger,
        set_logger, hl]

/-- Witness for C9: a successful `init_with_level(Warn)` from the fresh state
sets the filter to `Warn`; a failing `init_with_level(Debug)` from an
occupied state leaves the state (hence the filter) unchanged. -/
theorem init_sets_max_level_witness :
    ((runInit freshState (InitCall.initWithLevelC Level.Warn)).2).maxLevel =
      LevelFilter.Warn ∧
    (runInit occupiedState (InitCall.initWithLevelC Level.Debug)).2 = occupiedState :=
  ⟨(init_sets_max_level freshState (InitCall.initWithLevelC Level.Warn)).1 rfl,
   (init_sets_max_level occupiedState (InitCall.initWithLevelC Level.Debug)).2
     (fun h => Except.noConfusion h)⟩

/-- Helper: when every primitive succeeds, `logEmit` returns `Some(())` and
produces exactly the alloc / output / free sequence for the composed line. -/
theorem logEmit_success (env : OsEnv) (r : Record) (d t w : List Nat)
    (hd : env.dateFormatW env.systemTime = some d)
    (ht : env.timeFormatW env.systemTime = some t)
    (hf : env.formatMessageOk = true)
    (hw : str_to_c_wstr (bodyString r) = some w) :
    logEmit env r = (some (),
      [Ev.allocBuffer (d ++ [32] ++ t ++ [32] ++ w.dropLast ++ [10]),
       Ev.debugOutput (d ++ [32] ++ t ++ [32] ++ w.dropLast ++ [10]),
       Ev.freeBuffer (d ++ [32] ++ t ++ [32] ++ w.dropLast ++ [10])]) := by
  simp [logEmit, hw, hd, ht, formatMessage, hf]

/-- Helper: when some primitive fails, `logEmit` aborts with no events. -/
theorem logEmit_failure (env : OsEnv) (r : Record)
    (h : emitOk env r = false) : logEmit env r = (none, []) := by
  unfold emitOk at h
  cases hw : str_to_c_wstr (bodyString r) with
  | none => simp [logEmit, hw]
  | some w =>
    cases hd : env.dateFormatW env.systemTime with
    | none => simp [logEmit, hw, hd]
    | some d =>
      cases ht : env.timeFormatW env.systemTime with
      | none => simp [logEmit, hw, hd, ht]
      | some t =>
        simp [hw, hd, ht] at h
        simp [logEmit, hw, hd, ht, formatMessage, h]

/-- Helper: `logEmit` either aborts with no events or produces the exact
alloc / output / free sequence for one buffer. -/
theorem logEmit_shape (env : OsEnv) (r : Record) :
    logEmit env r = (none, []) ∨
    ∃ w, logEmit env r =
      (some (), [Ev.allocBuffer w, Ev.debugOutput w, Ev.freeBuffer w]) := by
  cases hok : emitOk env r with
  | false => exact Or.inl (logEmit_failure env r hok)
  | true =>
    unfold emitOk at hok
    simp only [Bool.and_eq_true, Option.isSome_iff_exists] at hok
    obtain ⟨⟨⟨⟨w, hw⟩, d, hd⟩, t, ht⟩, hf⟩ := hok
    exact Or.inr ⟨_, logEmit_success env r d t w hd ht hf hw⟩

/-- Helper: `enabled` on a record's metadata is the level comparison. -/
theorem enabled_metadata (L : WinDebugLogger) (r : Record) :
    L.enabled r.metadata = levelLe r.level L.level := rfl

/-- Claim C10: Over every sequence of `enabled` / `log` / `flush` calls, the
logger value — in particular its configured `level` — is unchanged (all three
methods take `&self` and the struct is never mutated after construction), and
`flush` performs no action: no events, unit result, logger unchanged. -/
theorem logger_immutable_flush_noop :
    (∀ (L : WinDebugLogger) (calls : List LoggerCall), (runCalls L calls).1 = L) ∧
    (∀ L : WinDebugLogger,
      L.flushMeth = ((), []) ∧ runCall L LoggerCall.flushC = (L, [])) := by
  constructor
  · intro L calls
    induction calls generalizing L with
    | nil => rfl
    | cons c cs ih =>
      have hc : (runCall L c).1 = L := by cases c <;> rfl
      simp [runCalls, hc, ih]
  · intro L
    exact ⟨rfl, rfl⟩

/-- Claim C6: On every path of the `log` dispatch, either no buffer is ever
allocated (trace is empty), or exactly one buffer is allocated by the
message-composition step and that same buffer is passed to the debug-output
call and then released — so the method never returns with the buffer still
allocated, and the release follows the debug-output call unconditionally. -/
theorem buffer_always_released :
    ∀ (L : WinDebugLogger) (env : OsEnv) (r : Record),
      (L.logMeth env r).2 = [] ∨
      ∃ w, (L.logMeth env r).2 =
        [Ev.allocBuffer w, Ev.debugOutput w, Ev.freeBuffer w] := by
  intro L env r
  unfold WinDebugLogger.logMeth
  cases he : L.enabled r.metadata with
  | false => exact Or.inl rfl
  | true =>
    rcases logEmit_shape env r with h | ⟨w, h⟩
    · exact Or.inl (by simp [he, h])
    · exact Or.inr ⟨w, by simp [he, h]⟩

/-- Claim C3: The `log` method always returns unit to the logging caller — the
fallible inner dispatch is discarded — and whenever any internal step fails
(text encoding, date format, time format, or message composition, i.e.
`emitOk` is false), the inner dispatch aborts as `(none, [])`: zero
debug-output calls, no partial output. -/
theorem emit_swallows_failures :
    ∀ (L : WinDebugLogger) (env : OsEnv) (r : Record),
      (L.logMeth env r).1 = () ∧
      (emitOk env r = false →
        logEmit env r = (none, []) ∧ (L.logMeth env r).2 = []) := by
  intro L env r
  refine ⟨rfl, fun h => ⟨logEmit_failure env r h, ?_⟩⟩
  unfold WinDebugLogger.logMeth
  cases he : L.enabled r.metadata with
  | false => rfl
  | true => simp [he, logEmit_failure env r h]

/-- Witness for C3: a message with an embedded null makes the encoding step
fail; the record is dropped with no events even though every OS primitive
would succeed. -/
theorem emit_swallows_failures_witness :
    logEmit okEnv nulRecord = (none, []) ∧
    ((WinDebugLogger.mk Level.Trace).logMeth okEnv nulRecord).2 = [] :=
  (emit_swallows_failures (WinDebugLogger.mk Level.Trace) okEnv nulRecord).2 (by decide)

/-- Claim C1: With the emission primitives succeeding (no failure abort), a
debug-output call is produced for a record if and only if
`record.level <= configured.level` in the `log`-crate ordering — and a record
above the threshold produces no call (indeed no event at all) under every
environment, so the level check is the only filtering. -/
theorem level_filtering :
    (∀ (L : WinDebugLogger) (env : OsEnv) (r : Record), emitOk env r = true →
      (hasOutputCall (L.logMeth env r).2 = true ↔ levelLe r.level L.level = true)) ∧
    (∀ (L : WinDebugLogger) (env : OsEnv) (r : Record),
      levelLe r.level L.level = false → (L.logMeth env r).2 = []) := by
  constructor
  · intro L env r hok
    unfold WinDebugLogger.logMeth
    rw [enabled_metadata]
    cases he : levelLe r.level L.level with
    | false => simp [hasOutputCall]
    | true =>
      simp only [Bool.not_true, Bool.false_eq_true, if_false, iff_true]
      unfold emitOk at hok
      simp only [Bool.and_eq_true, Option.isSome_iff_exists] at hok
      obtain ⟨⟨⟨⟨w, hw⟩, d, hd⟩, t, ht⟩, hf⟩ := hok
      rw [logEmit_success env r d t w hd ht hf hw]
      rfl
  · intro L env r he
    unfold WinDebugLogger.logMeth
    rw [enabled_metadata, he]
    rfl

/-- Claim C2: The rendered body: threading the spec's worked example through
the whole pipeline, an all-succeeding environment emits for it exactly
`<date> <time> WARN  [app::net] connection lost\n` (level name left-aligned,
space-padded to width 5); for any message, the `Info` record with empty
target and module path `crate::mod` renders as `INFO  [crate::mod] <message>`;
and in general the category is the target when non-empty, else the module
path, else the empty string. -/
theorem body_rendering :
    (∀ (env : OsEnv) (d t : List Nat),
      env.dateFormatW env.systemTime = some d →
      env.timeFormatW env.systemTime = some t →
      env.formatMessageOk = true →
      outputsOf (logEmit env warnRecord).2 =
        [d ++ [32] ++ t ++ [32] ++
          utf16Encode "WARN  [app::net] connection lost".data ++ [10]]) ∧
    (∀ msg : String,
      bodyString ⟨Level.Info, "", some "crate::mod", msg⟩ = "INFO  [crate::mod] " ++ msg) ∧
    (∀ r : Record,
      (r.target.length > 0 → categoryOf r = r.target) ∧
      (r.target = "" → categoryOf r = r.module_path.getD "")) := by
  refine ⟨?_, ?_, ?_⟩
  · intro env d t hd ht hf
    have hw : str_to_c_wstr (bodyString warnRecord) =
        some (utf16Encode "WARN  [app::net] connection lost".data ++ [0]) := by decide
    rw [logEmit_success env warnRecord d t _ hd ht hf hw]
    simp [outputsOf]
  · intro msg
    have hP : alignLeft5 (Level.display Level.Info) ++ " [" ++
        categoryOf ⟨Level.Info, "", some "crate::mod", msg⟩ ++ "] " =
        "INFO  [crate::mod] " := by rfl
    show alignLeft5 (Level.display Level.Info) ++ " [" ++
        categoryOf ⟨Level.Info, "", some "crate::mod", msg⟩ ++ "] " ++ msg =
        "INFO  [crate::mod] " ++ msg
    rw [hP]
  · intro r
    constructor
    · intro h
      simp [categoryOf, h]
    · intro h
      simp [categoryOf, h]

/-- Witness for C2: under the concrete all-succeeding environment the spec's
worked example emits exactly the expected line. -/
theorem body_rendering_witness :
    outputsOf (logEmit okEnv warnRecord).2 =
      [sampleDateW ++ [32] ++ sampleTimeW ++ [32] ++
        utf16Encode "WARN  [app::net] connection lost".data ++ [10]] :=
  body_rendering.1 okEnv sampleDateW sampleTimeW rfl rfl rfl

/-- Witness for C1: a `Warn` record against a `Warn` threshold produces an
output call under the all-succeeding environment; the same record against an
`Error` threshold produces none. -/
theorem level_filtering_witness :
    hasOutputCall ((WinDebugLogger.mk Level.Warn).logMeth okEnv warnRecord).2 = true ∧
    ((WinDebugLogger.mk Level.Error).logMeth okEnv warnRecord).2 = [] :=
  ⟨(level_filtering.1 (WinDebugLogger.mk Level.Warn) okEnv warnRecord (by decide)).mpr
      (by decide),
   level_filtering.2 (WinDebugLogger.mk Level.Error) okEnv warnRecord (by decide)⟩

/-- Counterexample to C4 as stated: a record whose message itself ends in a
newline is successfully emitted, and its final line ends in two newline
units, not exactly one. -/
theorem final_line_counterexample :
    outputsOf (logEmit okEnv newlineRecord).2 = [newlinePayload] ∧
    trailingNewlineCount newlinePayload = 2 := by
  constructor
  · decide
  · decide

/-- Helper: `takeWhile p` of a cons whose head fails `p` is empty. -/
theorem takeWhile_cons_false {p : Nat → Bool} {a : Nat} (l : List Nat)
    (h : p a = false) : (a :: l).takeWhile p = [] := by
  simp [List.takeWhile_cons, h]

/-- Claim C4, amended: For every successfully emitted record the final line is
the positional substitution of date, time and body into `"%1 %2 %3\n"`
(single spaces between, one newline appended). Provided the date and time
strings contain no newline and the body contains no newline — the message may
itself contain newlines, in which case more than one trailing newline can
occur — the line ends with exactly one newline unit; and provided the date
and time contain no space, splitting the line at its first two spaces yields
exactly the three top-level segments date, time, and body-plus-newline (the
body may contain internal spaces). -/
theorem final_line_composition :
    ∀ (env : OsEnv) (r : Record) (d t w : List Nat),
      env.dateFormatW env.systemTime = some d →
      env.timeFormatW env.systemTime = some t →
      env.formatMessageOk = true →
      str_to_c_wstr (bodyString r) = some w →
      outputsOf (logEmit env r).2 = [d ++ [32] ++ t ++ [32] ++ w.dropLast ++ [10]] ∧
      (10 ∉ d → 10 ∉ t → 10 ∉ w.dropLast →
        trailingNewlineCount (d ++ [32] ++ t ++ [32] ++ w.dropLast ++ [10]) = 1) ∧
      (32 ∉ d → 32 ∉ t →
        splitThreeSegments (d ++ [32] ++ t ++ [32] ++ w.dropLast ++ [10]) =
          (d, t, w.dropLast ++ [10])) := by
  intro env r d t w hd ht hf hw
  refine ⟨?_, ?_, ?_⟩
  · rw [logEmit_success env r d t w hd ht hf hw]
    simp [outputsOf]
  · intro _ _ h3
    have h4 : (d ++ [32] ++ t ++ [32] ++ w.dropLast ++ [10]).reverse =
        10 :: (d ++ [32] ++ t ++ [32] ++ w.dropLast).reverse := by
      rw [List.reverse_append]
      rfl
    have hX : (d ++ [32] ++ t ++ [32] ++ w.dropLast).reverse =
        w.dropLast.reverse ++ (32 :: (t.reverse ++ (32 :: d.reverse))) := by
      simp
    rw [trailingNewlineCount, h4, List.takeWhile_cons]
    have htail : ((d ++ [32] ++ t ++ [32] ++ w.dropLast).reverse).takeWhile
        (fun u => u == 10) = [] := by
      rw [hX]
      cases hbr : w.dropLast.reverse with
      | nil => simp
      | cons y ys =>
        have hy : y ∈ w.dropLast := by
          rw [← List.mem_reverse, hbr]
          exact List.mem_cons_self y ys
        have hy10 : (y == 10) = false := by
          have hne : y ≠ 10 := fun hEq => h3 (hEq ▸ hy)
          simpa using hne
        rw [List.cons_append]
        exact takeWhile_cons_false _ hy10
    rw [htail]
    rfl
  · intro h1 h2
    have hd32 : ∀ x ∈ d, (x != 32) = true := by
      intro x hx
      have hne : x ≠ 32 := fun hEq => h1 (hEq ▸ hx)
      simpa using hne
    have ht32 : ∀ x ∈ t, (x != 32) = true := by
      intro x hx
      have hne : x ≠ 32 := fun hEq => h2 (hEq ▸ hx)
      simpa using hne
    have hX : d ++ [32] ++ t ++ [32] ++ w.dropLast ++ [10] =
        d ++ (32 :: (t ++ (32 :: (w.dropLast ++ [10])))) := by
      simp
    rw [hX]
    have hsp1 : splitFirstSpace (d ++ (32 :: (t ++ (32 :: (w.dropLast ++ [10]))))) =
        (d, t ++ (32 :: (w.dropLast ++ [10]))) := by
      rw [splitFirstSpace, List.takeWhile_append_of_pos hd32,
        List.dropWhile_append_of_pos hd32]
      simp
    have hsp2 : splitFirstSpace (t ++ (32 :: (w.dropLast ++ [10]))) =
        (t, w.dropLast ++ [10]) := by
      rw [splitFirstSpace, List.takeWhile_append_of_pos ht32,
        List.dropWhile_append_of_pos ht32]
      simp
    rw [splitThreeSegments, hsp1]
    simp [hsp2]

/-- Witness for the amended C4: on the concrete all-succeeding environment
and the spec's worked example, the emitted line is the substitution, ends
with exactly one newline, and splits into the three expected segments. -/
theorem final_line_composition_witness :
    outputsOf (logEmit okEnv warnRecord).2 =
      [sampleDateW ++ [32] ++ sampleTimeW ++ [32] ++
        (utf16Encode "WARN  [app::net] connection lost".data ++ [0]).dropLast ++ [10]] ∧
    trailingNewlineCount (sampleDateW ++ [32] ++ sampleTimeW ++ [32] ++
      (utf16Encode "WARN  [app::net] connection lost".data ++ [0]).dropLast ++ [10]) = 1 ∧
    splitThreeSegments (sampleDateW ++ [32] ++ sampleTimeW ++ [32] ++
      (utf16Encode "WARN  [app::net] connection lost".data ++ [0]).dropLast ++ [10]) =
      (sampleDateW, sampleTimeW,
        (utf16Encode "WARN  [app::net] connection lost".data ++ [0]).dropLast ++ [10]) := by
  have h := final_line_composition okEnv warnRecord sampleDateW sampleTimeW
    (utf16Encode "WARN  [app::net] connection lost".data ++ [0]) rfl rfl rfl (by decide)
  exact ⟨h.1, h.2.1 (by decide) (by decide) (by decide), h.2.2 (by decide) (by decide)⟩

/-- Helper: a character's scalar value is a valid Unicode scalar value,
stated over `Nat`. -/
theorem char_toNat_valid (c : Char) :
    c.toNat < 0xD800 ∨ (0xDFFF < c.toNat ∧ c.toNat < 0x110000) := c.valid

/-- Helper: decoding a cons whose head is a non-surrogate scalar value. -/
theorem utf16Decode_cons_bmp {u : Nat} (rest : List Nat)
    (hv : u < 0xD800 ∨ (0xDFFF < u ∧ u < 0x110000)) :
    utf16Decode (u :: rest) = (utf16Decode rest).map (fun cs => Char.ofNat u :: cs) := by
  cases rest with
  | nil => rw [utf16Decode.eq_3, if_pos hv]
  | cons v rest2 => rw [utf16Decode.eq_2, if_pos hv]

/-- Helper: decoding a cons starting with a high surrogate followed by a low
surrogate combines the pair into one scalar value. -/
theorem utf16Decode_cons_pair {u v : Nat} (rest : List Nat)
    (hu1 : 0xD800 ≤ u) (hu2 : u ≤ 0xDBFF) (hv1 : 0xDC00 ≤ v) (hv2 : v ≤ 0xDFFF) :
    utf16Decode (u :: v :: rest) =
      (utf16Decode rest).map
        (fun cs => Char.ofNat (0x10000 + (u - 0xD800) * 0x400 + (v - 0xDC00)) :: cs) := by
  rw [utf16Decode.eq_2, if_neg (by omega), if_pos ⟨hu1, hu2⟩, if_pos ⟨hv1, hv2⟩]

/-- Helper: decoding the UTF-16 encoding of one character prepended to any
code-unit tail decodes the character and continues with the tail. -/
theorem utf16Decode_encodeChar (c : Char) (rest : List Nat) :
    utf16Decode (utf16EncodeChar c ++ rest) =
      (utf16Decode rest).map (fun cs => c :: cs) := by
  have hv := char_toNat_valid c
  by_cases h : c.toNat < 0x10000
  · have henc : utf16EncodeChar c = [c.toNat] := by
      rw [utf16EncodeChar, if_pos h]
    rw [henc]
    show utf16Decode (c.toNat :: rest) = _
    rw [utf16Decode_cons_bmp rest hv]
    simp only [Char.ofNat_toNat]
  · have hq : (c.toNat - 0x10000) / 0x400 < 0x400 := by omega
    have hr : (c.toNat - 0x10000) % 0x400 < 0x400 := Nat.mod_lt _ (by omega)
    have henc : utf16EncodeChar c =
        [0xD800 + (c.toNat - 0x10000) / 0x400, 0xDC00 + (c.toNat - 0x10000) % 0x400] := by
      rw [utf16EncodeChar, if_neg h]
    rw [henc]
    show utf16Decode (_ :: _ :: rest) = _
    rw [utf16Decode_cons_pair rest (by omega) (by omega) (by omega) (by omega)]
    have harith : 0x10000 +
        (0xD800 + (c.toNat - 0x10000) / 0x400 - 0xD800) * 0x400 +
        (0xDC00 + (c.toNat - 0x10000) % 0x400 - 0xDC00) = c.toNat := by omega
    simp only [harith, Char.ofNat_toNat]

/-- Helper: UTF-16 decoding is a left inverse of UTF-16 encoding on
character sequences. -/
theorem utf16Decode_encode (cs : List Char) :
    utf16Decode (utf16Encode cs) = some cs := by
  induction cs with
  | nil => rfl
  | cons c cs ih =>
    show utf16Decode (utf16EncodeChar c ++ utf16Encode cs) = _
    rw [utf16Decode_encodeChar, ih]
    rfl

/-- Claim C7: For every string without an embedded null character, encoding it
to the null-terminated wide-character form succeeds and decoding the result
back yields the original string. -/
theorem encode_decode_roundtrip :
    ∀ s : String, (∀ c ∈ s.data, c.toNat ≠ 0) →
      ∃ w, str_to_c_wstr s = some w ∧ c_wstr_to_str w = some s := by
  intro s h
  have hany : (s.data.any fun c => c.toNat == 0) = false := by
    rw [List.any_eq_false]
    intro c hc
    simp [h c hc]
  refine ⟨utf16Encode s.data ++ [0], ?_, ?_⟩
  · rw [str_to_c_wstr, if_neg]
    simp [hany]
  · rw [c_wstr_to_str, if_pos (List.getLast?_concat _)]
    rw [List.dropLast_concat, utf16Decode_encode]
    rfl

/-- Witness for C7: a concrete string mixing a one-unit character with a
surrogate-pair character round-trips through the encoder. -/
theorem encode_decode_roundtrip_witness :
    ∃ w, str_to_c_wstr "a𝄞" = some w ∧ c_wstr_to_str w = some "a𝄞" :=
  encode_decode_roundtrip "a𝄞" (by decide)
